import Mathlib

/-!
Verification of the NetGuard real-time analyzer core
(`src/realtime_analyzer.py`, class `RealTimeAnalyzer`).

The Python code is shallowly embedded as follows:
* a captured packet record (the dict built in `_packet_callback`, lines
  76-101) becomes the structure `PacketData`;
* the 27-entry feature dictionary built by `extract_flow_features`
  becomes the structure `Features`; numeric values are idealized as `ℚ`
  where the Python computation is field arithmetic on exact inputs, and
  as `ℝ` where it involves `sqrt`/`log2`;
* the prediction dict returned by `predict_threat` /
  `_rule_based_prediction` becomes the structure `Prediction`; the
  wall-clock `timestamp` entry is outside the embedding (no claim
  mentions it);
* `collections.deque(maxlen=·)` appends and the full-queue handling in
  `_analysis_loop` become `dequeAppend` / `queue_put_drop_oldest` on
  lists (oldest element at the head);
* the body of one iteration of `_analysis_loop` becomes
  `analysis_cycle` acting on `AnalyzerState`; the stats file written by
  `_update_stats_for_dashboard` is modelled by the `lastStats` field;
* fallible Python regions (model invocation, per-packet parsing) are
  modelled as `Except`-valued functions; a raised exception is `.error`.
-/

/-- A captured packet record: the dictionary built by
`RealTimeAnalyzer._packet_callback` (src/realtime_analyzer.py lines 76-101).
Timestamps are idealized as rational numbers of seconds. -/
structure PacketData where
  timestamp : ℚ
  src_ip : String
  dst_ip : String
  protocol : ℕ
  size : ℚ
  ttl : ℚ
  src_port : Option ℕ
  dst_port : Option ℕ
  flags : Option String
  icmp_type : Option ℕ
deriving DecidableEq

/-- The 27 named flow features produced by
`RealTimeAnalyzer.extract_flow_features` (lines 135-190).
`std_packet_size` and the two entropies are real-valued because the code
computes them with `sqrt` / `log2`; all other entries are exact rationals. -/
structure Features where
  total_packets : ℚ
  unique_src_ips : ℚ
  unique_dst_ips : ℚ
  unique_src_ports : ℚ
  unique_dst_ports : ℚ
  total_bytes : ℚ
  mean_packet_size : ℚ
  max_packet_size : ℚ
  min_packet_size : ℚ
  std_packet_size : ℝ
  tcp_packets : ℚ
  udp_packets : ℚ
  icmp_packets : ℚ
  other_protocol_packets : ℚ
  http_packets : ℚ
  https_packets : ℚ
  dns_packets : ℚ
  ssh_packets : ℚ
  mean_ttl : ℚ
  min_ttl : ℚ
  max_ttl : ℚ
  duration : ℚ
  packets_per_second : ℚ
  max_src_ip_count : ℚ
  max_dst_ip_count : ℚ
  src_ip_entropy : ℝ
  dst_ip_entropy : ℝ

/-- The prediction dictionary returned by `predict_threat` and
`_rule_based_prediction` (lines 226-232, 292-298).  The wall-clock
`timestamp` entry is not modelled. -/
structure Prediction where
  is_threat : Bool
  threat_type : String
  confidence : ℚ
  features : Features

/-- Model of `RealTimeAnalyzer._get_default_features` (lines 202-214): the
all-zero feature dictionary returned for an empty window. -/
def get_default_features : Features :=
  { total_packets := 0, unique_src_ips := 0, unique_dst_ips := 0
    unique_src_ports := 0, unique_dst_ports := 0, total_bytes := 0
    mean_packet_size := 0, max_packet_size := 0, min_packet_size := 0
    std_packet_size := 0, tcp_packets := 0, udp_packets := 0
    icmp_packets := 0, other_protocol_packets := 0, http_packets := 0
    https_packets := 0, dns_packets := 0, ssh_packets := 0
    mean_ttl := 0, min_ttl := 0, max_ttl := 0, duration := 0
    packets_per_second := 0, max_src_ip_count := 0
    max_dst_ip_count := 0, src_ip_entropy := 0, dst_ip_entropy := 0 }

/-- Maximum of a list of rationals, as `pandas.Series.max` on a non-empty
column (the value on `[]` is irrelevant: the code guards all uses). -/
def list_max : List ℚ → ℚ
  | [] => 0
  | x :: xs => xs.foldl max x

/-- Minimum of a list of rationals, as `pandas.Series.min` on a non-empty
column. -/
def list_min : List ℚ → ℚ
  | [] => 0
  | x :: xs => xs.foldl min x

/-- Sample standard deviation (`pandas.Series.std`, `ddof = 1`) of a list of
values; only used by the extractor when the batch has at least 2 packets. -/
noncomputable def sample_std (xs : List ℚ) : ℝ :=
  Real.sqrt
    (((xs.map (fun x => (x - xs.sum / (xs.length : ℚ)) ^ 2)).sum /
        ((xs.length : ℚ) - 1) : ℚ))

/-- Model of `RealTimeAnalyzer._calculate_entropy` (lines 192-200):
`value_counts` over the series, divide by the length, and return
`-Σ p * log2 (p + 1e-9)`.  Generic in the element type, as the Python code
is generic in the series dtype. -/
noncomputable def calculate_entropy {α : Type} [DecidableEq α] (s : List α) : ℝ :=
  -((s.dedup.map (fun v =>
      ((s.count v : ℝ) / (s.length : ℝ)) *
        Real.logb 2 ((s.count v : ℝ) / (s.length : ℝ) + 1e-9))).sum)

/-- The top of `Series.value_counts` (`iloc[0]`): the largest multiplicity of
any single value in the list. -/
def max_count {α : Type} [DecidableEq α] (s : List α) : ℕ :=
  (s.dedup.map (fun v => s.count v)).foldl max 0

/-- Timestamp span of a batch:
`df['timestamp'].max() - df['timestamp'].min()` in seconds. -/
def ts_span (packets : List PacketData) : ℚ :=
  list_max (packets.map (·.timestamp)) - list_min (packets.map (·.timestamp))

/-- Model of `RealTimeAnalyzer.extract_flow_features` (lines 125-190),
translated entry by entry.  `nunique` on the port columns skips the `None`
entries, hence the `filterMap`; the `'src_port' in df` / `'ttl' in df`
guards in the code are always true because `_packet_callback` always sets
those keys. -/
noncomputable def extract_flow_features (packets : List PacketData) : Features :=
  if packets.isEmpty then get_default_features
  else
    let n : ℚ := (packets.length : ℚ)
    { total_packets := n
      unique_src_ips := ((packets.map (·.src_ip)).dedup.length : ℚ)
      unique_dst_ips := ((packets.map (·.dst_ip)).dedup.length : ℚ)
      unique_src_ports := ((packets.filterMap (·.src_port)).dedup.length : ℚ)
      unique_dst_ports := ((packets.filterMap (·.dst_port)).dedup.length : ℚ)
      total_bytes := (packets.map (·.size)).sum
      mean_packet_size := (packets.map (·.size)).sum / n
      max_packet_size := list_max (packets.map (·.size))
      min_packet_size := list_min (packets.map (·.size))
      std_packet_size :=
        if 1 < packets.length then sample_std (packets.map (·.size)) else 0
      tcp_packets := ((packets.countP (fun p => p.protocol == 6)) : ℚ)
      udp_packets := ((packets.countP (fun p => p.protocol == 17)) : ℚ)
      icmp_packets := ((packets.countP (fun p => p.protocol == 1)) : ℚ)
      other_protocol_packets :=
        ((packets.countP (fun p =>
            p.protocol != 6 && p.protocol != 17 && p.protocol != 1)) : ℚ)
      http_packets :=
        ((packets.countP (fun p =>
            p.dst_port == some 80 || p.src_port == some 80)) : ℚ)
      https_packets :=
        ((packets.countP (fun p =>
            p.dst_port == some 443 || p.src_port == some 443)) : ℚ)
      dns_packets :=
        ((packets.countP (fun p =>
            p.dst_port == some 53 || p.src_port == some 53)) : ℚ)
      ssh_packets :=
        ((packets.countP (fun p =>
            p.dst_port == some 22 || p.src_port == some 22)) : ℚ)
      mean_ttl := (packets.map (·.ttl)).sum / n
      min_ttl := list_min (packets.map (·.ttl))
      max_ttl := list_max (packets.map (·.ttl))
      duration := if 1 < packets.length then ts_span packets else 0
      packets_per_second :=
        if 1 < packets.length then n / max 1 (ts_span packets) else 0
      max_src_ip_count := ((max_count (packets.map (·.src_ip))) : ℚ)
      max_dst_ip_count := ((max_count (packets.map (·.dst_ip))) : ℚ)
      src_ip_entropy := calculate_entropy (packets.map (·.src_ip))
      dst_ip_entropy := calculate_entropy (packets.map (·.dst_ip)) }

/-- Model of `RealTimeAnalyzer._rule_based_prediction` (lines 262-298): the
five-rule threshold cascade, first match wins. -/
noncomputable def rule_based_prediction (f : Features) : Prediction :=
  if f.packets_per_second > 100 then
    { is_threat := true, threat_type := "possible_dos_attack"
      confidence := min (f.packets_per_second / 200) 1, features := f }
  else if f.unique_dst_ports > 50 then
    { is_threat := true, threat_type := "port_scan_detected"
      confidence := min (f.unique_dst_ports / 100) 1, features := f }
  else if f.max_packet_size > 1400 ∧ f.tcp_packets > 10 then
    { is_threat := true, threat_type := "suspicious_large_packets"
      confidence := 0.6, features := f }
  else if f.dst_ip_entropy < 0.5 ∧ f.total_packets > 20 then
    { is_threat := true, threat_type := "suspicious_pattern"
      confidence := 0.5, features := f }
  else
    { is_threat := false, threat_type := "normal"
      confidence := 0, features := f }

/-- Outcome of a successful invocation of the opaque trained classifier:
the binary label from `model.predict` and, when the artifact exposes
`predict_proba`, the two class probabilities. -/
structure MLOutcome where
  label : ℕ
  proba : Option (ℚ × ℚ)

/-- Model of `RealTimeAnalyzer.predict_threat` (lines 216-260).  The whole
fallible model-invocation region (lines 236-250) is modelled as one
`Except`-valued call; `.error` is a raised exception, caught at line 252,
which falls back to `rule_based_prediction`.  `model = none` is the
no-model path (line 256). -/
noncomputable def predict_threat
    (model : Option (Features → Except String MLOutcome))
    (f : Features) : Prediction :=
  match model with
  | none => rule_based_prediction f
  | some m =>
    match m f with
    | .error _ => rule_based_prediction f
    | .ok r =>
      { is_threat := r.label == 1
        threat_type := if r.label == 1 then "ml_detected_threat" else "normal"
        confidence :=
          match r.proba with
          | some pq => if r.label == 1 then pq.2 else pq.1
          | none => 0
        features := f }

/-- Append to a `collections.deque(maxlen = cap)` (the `packet_buffer`
created at line 39): when the buffer already holds `cap` records the
oldest (head) is silently dropped.  The list is ordered oldest first. -/
def dequeAppend {α : Type} (cap : ℕ) (buf : List α) (x : α) : List α :=
  if buf.length < cap then buf ++ [x] else buf.drop 1 ++ [x]

/-- The publish step of `_analysis_loop` (lines 321-330): `put_nowait`,
and on `queue.Full` a `get_nowait` (dropping the single oldest unconsumed
item) followed by `put_nowait` of the new item.  Never blocks. -/
def queue_put_drop_oldest {α : Type} (cap : ℕ) (q : List α) (x : α) : List α :=
  if q.length < cap then q ++ [x] else q.drop 1 ++ [x]

/-- Result of appending a whole sequence of packet records, oldest first,
to an initially empty `WindowBuffer` of capacity `cap`. -/
def buffer_append_all (cap : ℕ) (xs : List PacketData) : List PacketData :=
  xs.foldl (dequeAppend cap) []

/-- Result of publishing a whole sequence of verdicts to the initially
empty delivery channel `prediction_queue` (capacity 1000, line 40),
with no intervening consumption. -/
def sink_publish_all (xs : List Prediction) : List Prediction :=
  xs.foldl (queue_put_drop_oldest 1000) []

/-- The statistics record written by `_update_stats_for_dashboard`
(lines 393-413).  The wall-clock `last_update` entry and the constant
`running` / `window_size` entries are outside the embedding. -/
structure Stats where
  total_packets : ℕ
  total_predictions : ℕ
  threats_detected : ℕ
  buffer_size : ℕ
  prediction_queue_size : ℕ
deriving DecidableEq

/-- Mutable state of a `RealTimeAnalyzer` instance as far as the analysis
pipeline is concerned: the window buffer, the delivery channel, the three
counters, and the last statistics snapshot written for the dashboard
(`none` when `data/ml_stats.json` has not been written yet). -/
structure AnalyzerState where
  packet_buffer : List PacketData
  prediction_queue : List Prediction
  total_packets : ℕ
  total_predictions : ℕ
  threats_detected : ℕ
  lastStats : Option Stats

/-- Build the statistics snapshot from the current analyzer state, as
`_update_stats_for_dashboard` does. -/
def mk_stats (s : AnalyzerState) : Stats :=
  { total_packets := s.total_packets
    total_predictions := s.total_predictions
    threats_detected := s.threats_detected
    buffer_size := s.packet_buffer.length
    prediction_queue_size := s.prediction_queue.length }

/-- The snapshot taken at the top of an analysis cycle:
`packets = list(self.packet_buffer)` (line 310) copies the buffer. -/
def snapshot (s : AnalyzerState) : List PacketData :=
  s.packet_buffer

/-- Model of `RealTimeAnalyzer._packet_callback` (lines 69-108).  The
fallible extraction region (lines 72-101) is modelled by the supplied
`parse` function: `.error` is a raised exception (caught at line 107,
state untouched, callback returns normally), `.ok none` is the early
return for a non-IP packet, and `.ok (some pd)` reaches the append
(line 104) and the counter increment (line 105), the only state changes;
neither of those two statements can raise. -/
def packet_callback {π : Type}
    (parse : π → Except String (Option PacketData))
    (s : AnalyzerState) (pkt : π) : AnalyzerState :=
  match parse pkt with
  | .error _ => s
  | .ok none => s
  | .ok (some pd) =>
    { s with packet_buffer := dequeAppend 10000 s.packet_buffer pd
             total_packets := s.total_packets + 1 }

/-- One iteration of `RealTimeAnalyzer._analysis_loop` (lines 304-351),
minus the wall-clock sleep: snapshot the buffer; if empty, `continue`
(nothing else happens, line 313); otherwise extract features, predict,
publish to the bounded delivery channel, bump the counters, and write
the statistics snapshot.  The predictions JSON file is not modelled (no
claim mentions it). -/
noncomputable def analysis_cycle
    (model : Option (Features → Except String MLOutcome))
    (s : AnalyzerState) : AnalyzerState :=
  if (snapshot s).length = 0 then s
  else
    let packets := snapshot s
    let features := extract_flow_features packets
    let prediction := predict_threat model features
    let s1 : AnalyzerState :=
      { s with
        prediction_queue :=
          queue_put_drop_oldest 1000 s.prediction_queue prediction
        total_predictions := s.total_predictions + 1
        threats_detected :=
          s.threats_detected + (if prediction.is_threat then 1 else 0) }
    { s1 with lastStats := some (mk_stats s1) }

/-- A batch of `k * m` addresses with exactly `k` distinct values, each
occurring `m` times: the uniform address distribution used to compare
entropies of batches of equal size but different diversity. -/
def uniform_batch (k m : ℕ) : List ℕ :=
  (List.range k).flatMap (fun i => List.replicate m i)

/-- A sample well-formed TCP packet record used as a concrete input. -/
def pkt_a : PacketData :=
  { timestamp := 0, src_ip := "10.0.0.1", dst_ip := "10.0.0.2"
    protocol := 6, size := 60, ttl := 64, src_port := some 1234
    dst_port := some 80, flags := some "S", icmp_type := none }

/-- A second sample packet, one second later. -/
def pkt_b : PacketData := { pkt_a with timestamp := 1 }

/-- A third sample packet, two seconds later. -/
def pkt_c : PacketData := { pkt_a with timestamp := 2 }

/-- A feature vector whose packet rate exceeds the DoS threshold. -/
def f_dos : Features :=
  { get_default_features with packets_per_second := 300 }

/-- A family of pairwise distinct verdicts used as concrete inputs. -/
def sink_pred (i : ℕ) : Prediction :=
  { is_threat := false, threat_type := "normal"
    confidence := (i : ℚ), features := get_default_features }

/-- An analyzer state holding a single buffered packet. -/
def s_one : AnalyzerState :=
  { packet_buffer := [pkt_a], prediction_queue := [], total_packets := 1,
    total_predictions := 0, threats_detected := 0, lastStats := none }

/-- A freshly started analyzer state with an empty buffer and no
statistics file written yet. -/
def s_empty : AnalyzerState :=
  { packet_buffer := [], prediction_queue := [], total_packets := 0,
    total_predictions := 0, threats_detected := 0, lastStats := none }

/-- Folding drop-oldest appends over any input keeps the final suffix of
the combined list, of length at most `cap`. -/
theorem foldl_dequeAppend {α : Type} (cap : ℕ) (hcap : 0 < cap) :
    ∀ (xs init : List α), init.length ≤ cap →
      xs.foldl (dequeAppend cap) init =
        (init ++ xs).drop (init.length + xs.length - cap) := by
  intro xs
  induction xs with
  | nil =>
    intro init hinit
    simp [Nat.sub_eq_zero_of_le, hinit]
  | cons x xs ih =>
    intro init hinit
    rw [List.foldl_cons]
    by_cases hlt : init.length < cap
    · rw [show dequeAppend cap init x = init ++ [x] from if_pos hlt]
      rw [ih (init ++ [x]) (by simpa using hlt)]
      rw [List.append_assoc, List.singleton_append]
      congr 1
      simp
      omega
    · have heq : init.length = cap := le_antisymm hinit (le_of_not_lt hlt)
      rw [show dequeAppend cap init x = init.drop 1 ++ [x] from if_neg hlt]
      have hlen : (init.drop 1 ++ [x]).length ≤ cap := by
        simp [List.length_drop]
        omega
      rw [ih (init.drop 1 ++ [x]) hlen]
      rw [List.append_assoc, List.singleton_append]
      have h1 : (init.drop 1 ++ x :: xs) = (init ++ x :: xs).drop 1 := by
        rw [List.drop_append_of_le_length (by omega)]
      rw [h1, List.drop_drop]
      congr 1
      simp [List.length_drop]
      omega

/-- Publishing any sequence into the empty delivery channel keeps exactly
the suffix that fits in the capacity of 1000. -/
theorem sink_publish_all_drop (xs : List Prediction) :
    sink_publish_all xs = xs.drop (xs.length - 1000) := by
  have e : sink_publish_all xs = xs.foldl (dequeAppend 1000) [] := rfl
  rw [e, foldl_dequeAppend 1000 (by norm_num) xs [] (by simp)]
  simp

/-- Deduplicating a non-empty constant list keeps one element. -/
theorem dedup_replicate {α : Type} [DecidableEq α] (a : α) :
    ∀ n : ℕ, 0 < n → (List.replicate n a).dedup = [a] := by
  intro n
  induction n with
  | zero => omega
  | succ m ih =>
    intro _
    rcases Nat.eq_zero_or_pos m with hm | hm
    · subst hm
      simp
    · rw [List.replicate_succ, List.dedup_cons_of_mem]
      · exact ih hm
      · exact List.mem_replicate.mpr ⟨by omega, rfl⟩

/-- On a non-empty series with all values identical, the code's entropy
evaluates to `-log2 (1 + 1e-9)`: the additive epsilon keeps it away
from the mathematical value 0. -/
theorem calculate_entropy_replicate {α : Type} [DecidableEq α]
    (n : ℕ) (hn : 0 < n) (a : α) :
    calculate_entropy (List.replicate n a) = -(Real.logb 2 (1 + 1e-9)) := by
  unfold calculate_entropy
  rw [dedup_replicate a n hn]
  have hcount : (List.replicate n a).count a = n := by
    simp [List.count_replicate]
  have hlen : (List.replicate n a).length = n := List.length_replicate n a
  rw [List.map_cons, List.map_nil, List.sum_cons, List.sum_nil, hcount, hlen]
  have hne : ((n : ℝ)) ≠ 0 := Nat.cast_ne_zero.mpr (by omega)
  rw [div_self hne]
  ring_nf

/-- Unfolding `uniform_batch` one block at a time. -/
theorem uniform_batch_succ (k m : ℕ) :
    uniform_batch (k + 1) m = uniform_batch k m ++ List.replicate m k := by
  unfold uniform_batch
  rw [List.range_succ, List.flatMap_append]
  simp

/-- A uniform batch over `k` values with multiplicity `m` has `k * m`
elements. -/
theorem uniform_batch_length (k m : ℕ) : (uniform_batch k m).length = k * m := by
  induction k with
  | zero => simp [uniform_batch]
  | succ j ih =>
    rw [uniform_batch_succ, List.length_append, ih, List.length_replicate]
    ring

/-- Each value below `k` occurs exactly `m` times in a uniform batch. -/
theorem uniform_batch_count (k m v : ℕ) :
    (uniform_batch k m).count v = if v < k then m else 0 := by
  induction k with
  | zero => simp [uniform_batch]
  | succ j ih =>
    rw [uniform_batch_succ, List.count_append, ih, List.count_replicate]
    rcases lt_trichotomy v j with h | h | h
    · rw [if_pos h, if_neg (show ¬ (j == v) = true by
          simp only [beq_iff_eq]; omega),
        if_pos (show v < j + 1 by omega)]
      omega
    · rw [if_neg (show ¬ v < j by omega), if_pos (show (j == v) = true by
          simp only [beq_iff_eq]; omega),
        if_pos (show v < j + 1 by omega)]
      omega
    · rw [if_neg (show ¬ v < j by omega), if_neg (show ¬ (j == v) = true by
          simp only [beq_iff_eq]; omega),
        if_neg (show ¬ v < j + 1 by omega)]

/-- Membership in a uniform batch is exactly being below `k`. -/
theorem uniform_batch_mem (k m v : ℕ) (hm : 0 < m) :
    v ∈ uniform_batch k m ↔ v < k := by
  rw [← List.count_pos_iff, uniform_batch_count]
  split_ifs with h
  · simp [hm, h]
  · simp [h]

/-- A uniform batch over `k` values has exactly `k` distinct values. -/
theorem uniform_batch_dedup_length (k m : ℕ) (hm : 0 < m) :
    (uniform_batch k m).dedup.length = k := by
  have hnd : (uniform_batch k m).dedup.Nodup := List.nodup_dedup _
  have hfin : (uniform_batch k m).toFinset = Finset.range k := by
    ext x
    rw [List.mem_toFinset, uniform_batch_mem k m x hm, Finset.mem_range]
  have hdt : (uniform_batch k m).dedup.toFinset = (uniform_batch k m).toFinset := by
    ext x
    rw [List.mem_toFinset, List.mem_toFinset, List.mem_dedup]
  calc (uniform_batch k m).dedup.length
      = (uniform_batch k m).dedup.toFinset.card :=
        (List.toFinset_card_of_nodup hnd).symm
    _ = (uniform_batch k m).toFinset.card := by rw [hdt]
    _ = k := by rw [hfin, Finset.card_range]

/-- The code's entropy of a uniform batch over `k` distinct values is
`-log2 (1/k + 1e-9)`, independently of the multiplicity `m`. -/
theorem calculate_entropy_uniform (k m : ℕ) (hk : 0 < k) (hm : 0 < m) :
    calculate_entropy (uniform_batch k m) =
      -(Real.logb 2 (1 / (k : ℝ) + 1e-9)) := by
  unfold calculate_entropy
  have hkR : ((k : ℝ)) ≠ 0 := Nat.cast_ne_zero.mpr (by omega)
  have hmR : ((m : ℝ)) ≠ 0 := Nat.cast_ne_zero.mpr (by omega)
  have hterm : ∀ v ∈ (uniform_batch k m).dedup,
      (((uniform_batch k m).count v : ℝ) / ((uniform_batch k m).length : ℝ)) *
          Real.logb 2
            (((uniform_batch k m).count v : ℝ) /
              ((uniform_batch k m).length : ℝ) + 1e-9) =
        (1 / (k : ℝ)) * Real.logb 2 (1 / (k : ℝ) + 1e-9) := by
    intro v hv
    have hvk : v < k := (uniform_batch_mem k m v hm).mp (List.mem_dedup.mp hv)
    have hc : (uniform_batch k m).count v = m := by
      rw [uniform_batch_count]
      exact if_pos hvk
    have hq : ((m : ℝ)) / (((k * m : ℕ) : ℝ)) = 1 / (k : ℝ) := by
      push_cast
      field_simp
      ring
    rw [hc, uniform_batch_length, hq]
  have hmap : (uniform_batch k m).dedup.map (fun v =>
      (((uniform_batch k m).count v : ℝ) / ((uniform_batch k m).length : ℝ)) *
        Real.logb 2
          (((uniform_batch k m).count v : ℝ) /
            ((uniform_batch k m).length : ℝ) + 1e-9)) =
      List.replicate k ((1 / (k : ℝ)) * Real.logb 2 (1 / (k : ℝ) + 1e-9)) := by
    apply List.eq_replicate_iff.mpr
    constructor
    · rw [List.length_map, uniform_batch_dedup_length k m hm]
    · intro b hb
      obtain ⟨v, hv, rfl⟩ := List.mem_map.mp hb
      exact hterm v hv
  rw [hmap, List.sum_replicate, nsmul_eq_mul]
  rw [show ((k : ℝ)) * ((1 / (k : ℝ)) * Real.logb 2 (1 / (k : ℝ) + 1e-9)) =
      Real.logb 2 (1 / (k : ℝ) + 1e-9) by field_simp]

/-- The epsilon inside the logarithm makes `log2 (1 + 1e-9)` strictly
positive. -/
theorem logb_epsilon_pos : 0 < Real.logb 2 (1 + 1e-9) :=
  Real.logb_pos (by norm_num) (by norm_num)

/-- The entropy offset `log2 (1 + 1e-9)` is below `2e-9`. -/
theorem logb_epsilon_lt : Real.logb 2 (1 + 1e-9) < 2e-9 := by
  have hlog : Real.log (1 + 1e-9) ≤ 1e-9 := by
    have := Real.log_le_sub_one_of_pos (show (0:ℝ) < 1 + 1e-9 by norm_num)
    linarith
  have h2 : (0.6931471803 : ℝ) < Real.log 2 := Real.log_two_gt_d9
  rw [Real.logb, div_lt_iff₀ (by linarith)]
  nlinarith

/-- For a non-empty batch whose source (resp. destination) addresses are
all identical, both extracted entropies equal `-log2 (1 + 1e-9)`. -/
theorem extract_const_entropy (ps : List PacketData) (a b : String)
    (h : ps ≠ []) (hsrc : ∀ p ∈ ps, p.src_ip = a)
    (hdst : ∀ p ∈ ps, p.dst_ip = b) :
    (extract_flow_features ps).src_ip_entropy = -(Real.logb 2 (1 + 1e-9)) ∧
    (extract_flow_features ps).dst_ip_entropy = -(Real.logb 2 (1 + 1e-9)) := by
  have hne : ps.isEmpty = false := by simpa [List.isEmpty_iff] using h
  have hlen : 0 < ps.length := List.length_pos.mpr h
  have hm1 : ps.map (·.src_ip) = List.replicate ps.length a := by
    apply List.eq_replicate_iff.mpr
    refine ⟨by simp, ?_⟩
    intro x hx
    obtain ⟨p, hp, rfl⟩ := List.mem_map.mp hx
    exact hsrc p hp
  have hm2 : ps.map (·.dst_ip) = List.replicate ps.length b := by
    apply List.eq_replicate_iff.mpr
    refine ⟨by simp, ?_⟩
    intro x hx
    obtain ⟨p, hp, rfl⟩ := List.mem_map.mp hx
    exact hdst p hp
  constructor
  · simp only [extract_flow_features, hne, Bool.false_eq_true, if_false]
    rw [hm1, calculate_entropy_replicate ps.length hlen a]
  · simp only [extract_flow_features, hne, Bool.false_eq_true, if_false]
    rw [hm2, calculate_entropy_replicate ps.length hlen b]

/-- An analysis cycle whose snapshot is empty leaves the whole analyzer
state untouched (the `continue` at line 313 skips everything). -/
theorem cycle_empty_eq
    (model : Option (Features → Except String MLOutcome))
    (s : AnalyzerState) (h : s.packet_buffer = []) :
    analysis_cycle model s = s := by
  unfold analysis_cycle
  rw [if_pos (by simp [snapshot, h])]

/-- C1: for every feature vector, the rule-based scorer evaluates the five
rules in fixed priority order with first match winning, reproducing the
exact thresholds, categories and confidence formulas of
`_rule_based_prediction`; in particular a vector satisfying both the
rule-1 and rule-2 thresholds is classified under rule 1 only. -/
theorem rule_engine_spec (f : Features) :
    (f.packets_per_second > 100 →
      rule_based_prediction f =
        { is_threat := true, threat_type := "possible_dos_attack"
          confidence := min (f.packets_per_second / 200) 1, features := f })
    ∧ (¬ f.packets_per_second > 100 → f.unique_dst_ports > 50 →
      rule_based_prediction f =
        { is_threat := true, threat_type := "port_scan_detected"
          confidence := min (f.unique_dst_ports / 100) 1, features := f })
    ∧ (¬ f.packets_per_second > 100 → ¬ f.unique_dst_ports > 50 →
        f.max_packet_size > 1400 ∧ f.tcp_packets > 10 →
      rule_based_prediction f =
        { is_threat := true, threat_type := "suspicious_large_packets"
          confidence := 0.6, features := f })
    ∧ (¬ f.packets_per_second > 100 → ¬ f.unique_dst_ports > 50 →
        ¬ (f.max_packet_size > 1400 ∧ f.tcp_packets > 10) →
        f.dst_ip_entropy < 0.5 ∧ f.total_packets > 20 →
      rule_based_prediction f =
        { is_threat := true, threat_type := "suspicious_pattern"
          confidence := 0.5, features := f })
    ∧ (¬ f.packets_per_second > 100 → ¬ f.unique_dst_ports > 50 →
        ¬ (f.max_packet_size > 1400 ∧ f.tcp_packets > 10) →
        ¬ (f.dst_ip_entropy < 0.5 ∧ f.total_packets > 20) →
      rule_based_prediction f =
        { is_threat := false, threat_type := "normal"
          confidence := 0, features := f })
    ∧ (f.packets_per_second > 100 → f.unique_dst_ports > 50 →
      rule_based_prediction f =
        { is_threat := true, threat_type := "possible_dos_attack"
          confidence := min (f.packets_per_second / 200) 1, features := f }) := by
  refine ⟨?_, ?_, ?_, ?_, ?_, ?_⟩ <;> intros <;>
    simp only [rule_based_prediction] <;> split_ifs <;> rfl

/-- C1 witness: a vector with rate 300 packets/sec fires rule 1 with
confidence `min (300/200) 1`. -/
theorem rule_engine_spec_witness :
    f_dos.packets_per_second > 100 ∧
      rule_based_prediction f_dos =
        { is_threat := true, threat_type := "possible_dos_attack"
          confidence := min (f_dos.packets_per_second / 200) 1
          features := f_dos } := by
  have h : f_dos.packets_per_second > 100 := by
    norm_num [f_dos, get_default_features]
  exact ⟨h, (rule_engine_spec f_dos).1 h⟩

/-- C2: a `WindowBuffer` of capacity `cap` never holds more than `cap`
records (10,000 for the default buffer of line 39), and after appending
`cap + k` records to an empty buffer the snapshot has length exactly
`cap` and is exactly the last `cap` appended records in insertion order
(the first `k` records were silently dropped). -/
theorem window_buffer_capacity (cap k : ℕ) (hcap : 0 < cap)
    (xs : List PacketData) (h : xs.length = cap + k) :
    buffer_append_all cap xs = xs.drop k ∧
    (buffer_append_all cap xs).length = cap ∧
    (∀ ys : List PacketData, (buffer_append_all cap ys).length ≤ cap) := by
  have key : buffer_append_all cap xs = xs.drop k := by
    unfold buffer_append_all
    rw [foldl_dequeAppend cap hcap xs [] (by simp)]
    simp only [List.nil_append, List.length_nil, Nat.zero_add]
    congr 1
    omega
  refine ⟨key, ?_, ?_⟩
  · rw [key]
    simp [List.length_drop, h]
  · intro ys
    unfold buffer_append_all
    rw [foldl_dequeAppend cap hcap ys [] (by simp)]
    simp only [List.nil_append, List.length_nil, Nat.zero_add, List.length_drop]
    omega

/-- C2 witness: appending three records to an empty buffer of capacity 2
keeps exactly the last two, in order. -/
theorem window_buffer_capacity_witness :
    0 < 2 ∧ ([pkt_a, pkt_b, pkt_c] : List PacketData).length = 2 + 1 ∧
      buffer_append_all 2 [pkt_a, pkt_b, pkt_c] = [pkt_b, pkt_c] := by
  have h : ([pkt_a, pkt_b, pkt_c] : List PacketData).length = 2 + 1 := rfl
  exact ⟨by norm_num, h,
    ((window_buffer_capacity 2 1 (by norm_num) _ h).1).trans rfl⟩

/-- C3: the empty batch yields the documented all-zero vector over the 27
named features (not an error), and every one-packet batch yields
duration 0, rate 0 and sample standard deviation 0. -/
theorem extract_empty_singleton :
    (extract_flow_features [] =
      { total_packets := 0, unique_src_ips := 0, unique_dst_ips := 0
        unique_src_ports := 0, unique_dst_ports := 0, total_bytes := 0
        mean_packet_size := 0, max_packet_size := 0, min_packet_size := 0
        std_packet_size := 0, tcp_packets := 0, udp_packets := 0
        icmp_packets := 0, other_protocol_packets := 0, http_packets := 0
        https_packets := 0, dns_packets := 0, ssh_packets := 0
        mean_ttl := 0, min_ttl := 0, max_ttl := 0, duration := 0
        packets_per_second := 0, max_src_ip_count := 0
        max_dst_ip_count := 0, src_ip_entropy := 0, dst_ip_entropy := 0 })
    ∧ ∀ p : PacketData,
        (extract_flow_features [p]).duration = 0 ∧
        (extract_flow_features [p]).packets_per_second = 0 ∧
        (extract_flow_features [p]).std_packet_size = 0 := by
  constructor
  · rfl
  · intro p
    simp [extract_flow_features]

/-- C4: when the trained model raises during `predict_threat`, no failure
propagates and the returned verdict is exactly the rule-based verdict for
the same feature vector. -/
theorem model_failure_fallback
    (m : Features → Except String MLOutcome) (f : Features) (e : String)
    (h : m f = Except.error e) :
    predict_threat (some m) f = rule_based_prediction f := by
  simp only [predict_threat, h]

/-- C4 witness: a model that always raises falls back to the rule-based
verdict on a concrete vector. -/
theorem model_failure_fallback_witness :
    ((fun _ : Features => (Except.error "model invocation failed" :
        Except String MLOutcome)) f_dos = Except.error "model invocation failed")
    ∧ predict_threat
        (some (fun _ : Features => Except.error "model invocation failed"))
        f_dos = rule_based_prediction f_dos :=
  ⟨rfl, model_failure_fallback _ f_dos "model invocation failed" rfl⟩

/-- C5: `publish` never blocks and the delivery channel never exceeds
capacity 1000; after `1000 + k` publishes with no consumption the channel
holds exactly the most recent 1000 verdicts in order, and (for pairwise
distinct verdicts) each of the first `k` published — in particular the
first-published one after 1001 publishes — is absent. -/
theorem prediction_sink_capacity (xs : List Prediction) (k : ℕ)
    (h : xs.length = 1000 + k) :
    (∀ ys : List Prediction, (sink_publish_all ys).length ≤ 1000) ∧
    sink_publish_all xs = xs.drop k ∧
    (sink_publish_all xs).length = 1000 ∧
    (xs.Nodup → ∀ v ∈ xs.take k, v ∉ sink_publish_all xs) := by
  have key : sink_publish_all xs = xs.drop k := by
    rw [sink_publish_all_drop]
    have hk : xs.length - 1000 = k := by omega
    rw [hk]
  refine ⟨?_, key, ?_, ?_⟩
  · intro ys
    rw [sink_publish_all_drop]
    simp only [List.length_drop]
    omega
  · rw [key]
    simp [List.length_drop, h]
  · intro hnd v hv
    rw [key]
    have hsplit : xs = xs.take k ++ xs.drop k := (List.take_append_drop k xs).symm
    rw [hsplit] at hnd
    have hdis := (List.nodup_append.mp hnd).2.2
    exact fun hmem => hdis hv hmem

/-- C5 witness: after 1001 distinct publishes the first-published verdict
is no longer in the channel. -/
theorem prediction_sink_capacity_witness :
    ((List.range 1001).map sink_pred).length = 1000 + 1 ∧
      sink_pred 0 ∉ sink_publish_all ((List.range 1001).map sink_pred) := by
  have h : ((List.range 1001).map sink_pred).length = 1000 + 1 := by simp
  have hinj : Function.Injective sink_pred := by
    intro i j hij
    have hc := congrArg Prediction.confidence hij
    simp only [sink_pred] at hc
    exact_mod_cast hc
  have hnd : ((List.range 1001).map sink_pred).Nodup :=
    (List.nodup_range 1001).map hinj
  have hmem : sink_pred 0 ∈ ((List.range 1001).map sink_pred).take 1 := by
    rw [← List.map_take, List.take_range]
    simp
  exact ⟨h, (prediction_sink_capacity _ 1 h).2.2.2 hnd _ hmem⟩

/-- C6 counterexample: for a one-packet batch the code returns rate 0,
not `count / max(duration, 1) = 1` as the claim states for every
non-empty batch. -/
theorem rate_singleton_counterexample :
    (extract_flow_features [pkt_a]).packets_per_second ≠
      (extract_flow_features [pkt_a]).total_packets /
        max (extract_flow_features [pkt_a]).duration 1 := by
  simp [extract_flow_features]

/-- C6 (amended): for every non-empty batch the extracted duration equals
the timestamp span (0 when the batch has one packet, since the span is
then 0); the extracted rate equals `count / max(duration, 1 second)` for
batches of at least two packets, and is 0 for a one-packet batch. -/
theorem duration_rate_amended (ps : List PacketData) (h : ps ≠ []) :
    (extract_flow_features ps).duration = ts_span ps
    ∧ (1 < ps.length →
        (extract_flow_features ps).packets_per_second =
          (extract_flow_features ps).total_packets /
            max (extract_flow_features ps).duration 1)
    ∧ (ps.length = 1 → (extract_flow_features ps).packets_per_second = 0) := by
  have hne : ps.isEmpty = false := by
    simpa [List.isEmpty_iff] using h
  by_cases hlen : 1 < ps.length
  · refine ⟨?_, fun _ => ?_, fun h1 => by omega⟩
    · simp [extract_flow_features, hne, hlen]
    · simp only [extract_flow_features, hne, Bool.false_eq_true, if_false,
        if_pos hlen]
      rw [max_comm]
  · have h1 : ps.length = 1 := by
      rcases Nat.lt_or_ge ps.length 1 with h0 | h0
      · exact absurd (List.eq_nil_of_length_eq_zero (by omega)) h
      · omega
    obtain ⟨a, rfl⟩ := List.length_eq_one.mp h1
    refine ⟨?_, fun hc => by omega, fun _ => ?_⟩
    · simp [extract_flow_features, ts_span, list_max, list_min]
    · simp [extract_flow_features]

/-- C6 witness: on a concrete two-packet batch the extracted duration is
the timestamp span. -/
theorem duration_rate_amended_witness :
    ([pkt_a, pkt_b] : List PacketData) ≠ [] ∧
      (extract_flow_features [pkt_a, pkt_b]).duration = ts_span [pkt_a, pkt_b] :=
  ⟨by simp, (duration_rate_amended [pkt_a, pkt_b] (by simp)).1⟩

/-- C7 counterexample: a batch of two packets with identical source
addresses has source-address entropy `-log2 (1 + 1e-9) ≠ 0`: the additive
epsilon makes the entropy of a constant batch slightly negative, not 0. -/
theorem entropy_zero_counterexample :
    (∀ p ∈ ([pkt_a, pkt_a] : List PacketData), p.src_ip = "10.0.0.1") ∧
    (extract_flow_features [pkt_a, pkt_a]).src_ip_entropy ≠ 0 := by
  have hs : ∀ p ∈ ([pkt_a, pkt_a] : List PacketData), p.src_ip = "10.0.0.1" := by
    intro p hp
    rcases List.mem_cons.mp hp with rfl | hp1
    · rfl
    · rcases List.mem_cons.mp hp1 with rfl | hp2
      · rfl
      · exact absurd hp2 (List.not_mem_nil p)
  have hd : ∀ p ∈ ([pkt_a, pkt_a] : List PacketData), p.dst_ip = "10.0.0.2" := by
    intro p hp
    rcases List.mem_cons.mp hp with rfl | hp1
    · rfl
    · rcases List.mem_cons.mp hp1 with rfl | hp2
      · rfl
      · exact absurd hp2 (List.not_mem_nil p)
  refine ⟨hs, ?_⟩
  rw [(extract_const_entropy [pkt_a, pkt_a] _ _ (by simp) hs hd).1]
  have hpos := logb_epsilon_pos
  intro hc
  rw [neg_eq_zero] at hc
  linarith

/-- C7 (amended): for every non-empty batch with all addresses identical
both extracted entropies equal `-log2 (1 + 1e-9)`, a value that is
strictly negative but within `2e-9` of 0 (not exactly 0 as claimed); and
for batches of fixed size `k * m` distributed uniformly over `k` distinct
addresses, the entropy strictly increases with the diversity `k`. -/
theorem entropy_spec_amended :
    (∀ (ps : List PacketData) (a b : String), ps ≠ [] →
      (∀ p ∈ ps, p.src_ip = a) → (∀ p ∈ ps, p.dst_ip = b) →
      ((extract_flow_features ps).src_ip_entropy = -(Real.logb 2 (1 + 1e-9)) ∧
       (extract_flow_features ps).dst_ip_entropy = -(Real.logb 2 (1 + 1e-9)) ∧
       (extract_flow_features ps).src_ip_entropy < 0 ∧
       -(2e-9) < (extract_flow_features ps).src_ip_entropy))
    ∧ (∀ k₁ m₁ k₂ m₂ : ℕ, 0 < k₁ → 0 < m₁ → 0 < m₂ → k₁ < k₂ →
        k₁ * m₁ = k₂ * m₂ →
        calculate_entropy (uniform_batch k₁ m₁) <
          calculate_entropy (uniform_batch k₂ m₂)) := by
  constructor
  · intro ps a b h hsrc hdst
    obtain ⟨h1, h2⟩ := extract_const_entropy ps a b h hsrc hdst
    refine ⟨h1, h2, ?_, ?_⟩
    · rw [h1]
      linarith [logb_epsilon_pos]
    · rw [h1]
      linarith [logb_epsilon_lt]
  · intro k₁ m₁ k₂ m₂ hk₁ hm₁ hm₂ hlt heq
    have hk₂ : 0 < k₂ := lt_trans hk₁ hlt
    rw [calculate_entropy_uniform k₁ m₁ hk₁ hm₁,
        calculate_entropy_uniform k₂ m₂ hk₂ hm₂]
    have hx : (0:ℝ) < 1 / (k₂:ℝ) + 1e-9 := by positivity
    have hxy : 1 / (k₂:ℝ) + 1e-9 < 1 / (k₁:ℝ) + 1e-9 := by
      have hdiv : (1:ℝ)/(k₂:ℝ) < 1/(k₁:ℝ) := by
        apply one_div_lt_one_div_of_lt
        · exact_mod_cast hk₁
        · exact_mod_cast hlt
      linarith
    have hmono := Real.logb_lt_logb (by norm_num : (1:ℝ) < 2) hx hxy
    linarith

/-- C7 witness: a size-2 batch with one address has strictly smaller
entropy than a size-2 batch with two distinct addresses. -/
theorem entropy_spec_amended_witness :
    calculate_entropy (uniform_batch 1 2) < calculate_entropy (uniform_batch 2 1) :=
  entropy_spec_amended.2 1 2 2 1 (by norm_num) (by norm_num) (by norm_num)
    (by norm_num) (by norm_num)

/-- C8 counterexample: a cycle over an empty snapshot emits no verdict
and leaves `total_predictions` unchanged, but — contrary to the claim —
it does NOT update the statistics snapshot: no stats record (with
`buffer_size = 0` or otherwise) is written, because the `continue` at
line 313 skips `_update_stats_for_dashboard`. -/
theorem empty_cycle_stats_counterexample :
    s_empty.packet_buffer = [] ∧
    (analysis_cycle none s_empty).total_predictions = 0 ∧
    (analysis_cycle none s_empty).prediction_queue = [] ∧
    ¬ (∃ st : Stats, (analysis_cycle none s_empty).lastStats = some st ∧
        st.buffer_size = 0) := by
  have h : analysis_cycle none s_empty = s_empty := cycle_empty_eq none s_empty rfl
  refine ⟨rfl, by rw [h]; rfl, by rw [h]; rfl, ?_⟩
  rintro ⟨st, hst, -⟩
  rw [h] at hst
  exact Option.noConfusion hst

/-- C8 (amended): a cycle whose buffer snapshot is empty is a complete
no-op: no verdict is emitted, `total_predictions` is unchanged, nothing
is published to the sink, and the statistics snapshot is NOT updated
either. -/
theorem empty_cycle_noop
    (model : Option (Features → Except String MLOutcome))
    (s : AnalyzerState) (h : s.packet_buffer = []) :
    analysis_cycle model s = s :=
  cycle_empty_eq model s h

/-- C8 witness: the no-op behaviour on a concrete freshly started state. -/
theorem empty_cycle_noop_witness :
    s_empty.packet_buffer = [] ∧ analysis_cycle none s_empty = s_empty :=
  ⟨rfl, empty_cycle_noop none s_empty rfl⟩

/-- C9: per-packet processing errors are isolated: when the extraction of
a packet raises, the capture callback returns normally (it is a total
function of the state) and both the `WindowBuffer` contents and the
total-packets counter are exactly what they were before. -/
theorem packet_error_isolation {π : Type}
    (parse : π → Except String (Option PacketData))
    (s : AnalyzerState) (pkt : π) (e : String)
    (h : parse pkt = Except.error e) :
    packet_callback parse s pkt = s := by
  simp only [packet_callback, h]

/-- C9 witness: a parser that raises on a concrete packet leaves a
concrete one-packet state untouched. -/
theorem packet_error_isolation_witness :
    ((fun _ : Unit => (Except.error "malformed packet" :
        Except String (Option PacketData))) () = Except.error "malformed packet")
    ∧ packet_callback
        (fun _ : Unit => Except.error "malformed packet") s_one () = s_one :=
  ⟨rfl, packet_error_isolation _ s_one () "malformed packet" rfl⟩

/-- C10: taking the snapshot for an analysis cycle removes nothing from
the `WindowBuffer`: the buffer is unchanged by the snapshot/extract/score
steps, and every buffered record is in the snapshot of the current cycle
and still in the snapshot of the next cycle. -/
theorem snapshot_nondestructive
    (model : Option (Features → Except String MLOutcome))
    (s : AnalyzerState) :
    (analysis_cycle model s).packet_buffer = s.packet_buffer ∧
    snapshot (analysis_cycle model s) = snapshot s ∧
    (∀ r ∈ s.packet_buffer,
      r ∈ snapshot s ∧ r ∈ snapshot (analysis_cycle model s)) := by
  have hbuf : (analysis_cycle model s).packet_buffer = s.packet_buffer := by
    unfold analysis_cycle
    split
    · rfl
    · rfl
  exact ⟨hbuf, by simp [snapshot, hbuf], fun r hr =>
    ⟨hr, by simpa [snapshot, hbuf] using hr⟩⟩

/-- C10 witness: a concrete buffered record survives a full analysis
cycle and is in the next snapshot. -/
theorem snapshot_nondestructive_witness :
    pkt_a ∈ s_one.packet_buffer
    ∧ pkt_a ∈ snapshot (analysis_cycle none s_one) := by
  have hm : pkt_a ∈ s_one.packet_buffer := by simp [s_one]
  exact ⟨hm, ((snapshot_nondestructive none s_one).2.2 pkt_a hm).2⟩
